import Mathlib

set_option maxHeartbeats 1000000

/-!
Shallow embedding of `InfiniteDimensionalSystem.adaptive_convergence` from
`src/archive/original_src/emergence/infinite_dimensional/infinite_dimensional_framework.py`.

The Python method (lines 54-95 of the source file) is:

```
dimension = 10
previous_result = None
for iteration in range(max_iterations):
    current_result = computation_func(dimension)
    if previous_result is not None:
        if isinstance(current_result, (int, float, complex)):
            error = abs(current_result - previous_result)
        elif isinstance(current_result, np.ndarray):
            error = np.linalg.norm(current_result - previous_result)
        else:
            error = float('inf')
        self.convergence_history.append({'dimension': dimension,
                                         'error': error,
                                         'result': current_result})
        if error < tolerance:
            return current_result, dimension
    previous_result = current_result
    dimension *= 2
warnings.warn(f"Failed to converge within N iterations")
return current_result, dimension
```

Modelling decisions:
* Scalars (`int`/`float`/`complex`) are modelled as a pair of rationals
  `PyVal.num re im` (real scalars have `im = 0`).  Exact rational arithmetic
  stands in for Python floats; every numeric comparison appearing in the
  claims is decided with a margin enormously larger than double rounding
  error.
* Dense numeric arrays are modelled as 1-D lists of rationals (`PyVal.arr`).
  The claims only exercise 1-D arrays.
* Any other Python value (the spec's "any other type") is modelled as
  `PyVal.str`.
* Every error/distance value produced by the driver is a nonnegative real
  of the form `Real.sqrt q` for a rational `q` (`abs` of a complex scalar and
  `np.linalg.norm` are both square roots of rational sums of squares), or
  `float('inf')`.  `ErrVal.scalarSq q` encodes the real number `Real.sqrt q`;
  `ErrVal.infinite` encodes `inf`.  `ErrVal.arrAbsSq qs` encodes the numpy
  array `[Real.sqrt q | q in qs]` that arises when the current result is a
  scalar and the previous one is an array (Python `abs(scalar - ndarray)`).
  The lemma `errLtTol_scalarSq_iff` proves the Boolean comparison used by the
  embedded driver agrees with the real comparison `Real.sqrt q < tolerance`.
* Exceptions are modelled with `Except`: `computation_func` may raise, and
  the driver's own arithmetic can raise `TypeError` (scalar minus string,
  array minus string) or `ValueError` (non-broadcastable array shapes,
  truthiness of a multi-element boolean array).
* The mutable `self.convergence_history` list is threaded as explicit state:
  the embedded driver takes the history on entry and returns the history on
  exit.  The middle `Nat` component of the result counts how many times
  `warnings.warn` ran during the call.
-/

/-- Python exception kinds that can escape the embedded driver:
`TypeError` (numeric minus string), `ValueError` (non-broadcastable numpy
shapes / ambiguous boolean-array truth value), and `UnboundLocalError`
(`current_result` read after a zero-iteration loop), plus `custom` for
exceptions raised by the user-supplied `computation_func` (claim C9). -/
inductive PyErr where
  | typeError
  | valueError
  | nameError
  | custom (tag : ℕ)
deriving DecidableEq, Repr

/-- Runtime values a `computation_func` can return: a numeric scalar
(`int`/`float`/`complex`, encoded as real and imaginary rational parts, with
`im = 0` for real scalars), a dense 1-D numeric array, or any other Python
object (modelled by a string). -/
inductive PyVal where
  | num (re im : ℚ)
  | arr (xs : List ℚ)
  | str (s : String)
deriving DecidableEq, Repr

/-- Value of the local variable `error` in the Python driver.
`scalarSq q` encodes the nonnegative real `Real.sqrt q` (absolute value of a
scalar difference, or an L2 norm); `arrAbsSq qs` encodes the numpy array
whose entries are `Real.sqrt q` for `q` in `qs` (elementwise `abs` from
`abs(scalar - ndarray)`); `infinite` encodes `float('inf')`. -/
inductive ErrVal where
  | scalarSq (q : ℚ)
  | arrAbsSq (qs : List ℚ)
  | infinite
deriving DecidableEq, Repr

/-- One record appended to `self.convergence_history`: the dict
`{'dimension': ..., 'error': ..., 'result': ...}` from line 82-86 of the
source.  (The spec calls the `dimension` field "size".) -/
structure LogEntry where
  dimension : ℕ
  error : ErrVal
  result : PyVal
deriving DecidableEq, Repr

/-- Lines 74-80 of the source: compute `error` from `current_result` and
`previous_result`.  The dispatch is on the type of `current_result` only.
- current scalar: `abs(current - previous)`; against a scalar this is the
  complex modulus `Real.sqrt ((cr-pr)^2 + (ci-pi)^2)`; against an array it is
  an elementwise array of moduli; against a string it raises `TypeError`.
- current array: `np.linalg.norm(current - previous)`; against a scalar this
  broadcasts; against an equal-length array it is the L2 norm of the
  elementwise difference; against an array of different length numpy
  broadcasts when one length is 1 and raises `ValueError` otherwise; against
  a string the subtraction raises.
- current of any other type: `float('inf')`. -/
def computeError (current previous : PyVal) : Except PyErr ErrVal :=
  match current with
  | .num cr ci =>
    match previous with
    | .num pr pi => .ok (.scalarSq ((cr - pr) ^ 2 + (ci - pi) ^ 2))
    | .arr ys => .ok (.arrAbsSq (ys.map fun y => (cr - y) ^ 2 + ci ^ 2))
    | .str _ => .error .typeError
  | .arr xs =>
    match previous with
    | .num pr pi => .ok (.scalarSq ((xs.map fun x => (x - pr) ^ 2 + pi ^ 2).sum))
    | .arr ys =>
      if xs.length = ys.length then
        .ok (.scalarSq ((List.zipWith (fun x y => (x - y) ^ 2) xs ys).sum))
      else if xs.length = 1 then
        .ok (.scalarSq ((ys.map fun y => (xs.headI - y) ^ 2).sum))
      else if ys.length = 1 then
        .ok (.scalarSq ((xs.map fun x => (x - ys.headI) ^ 2).sum))
      else .error .valueError
    | .str _ => .error .typeError
  | .str _ => .ok .infinite

/-- Line 88 of the source: the strict test `error < tolerance`.
For a scalar error encoded as `Real.sqrt q` (with `0 ≤ q`), the real
comparison `Real.sqrt q < tolerance` is equivalent to
`0 < tolerance ∧ q < tolerance ^ 2` (lemma `errLtTol_scalarSq_iff`).
`float('inf') < tolerance` is always false.  Comparing a numpy error array
with the tolerance and using it as an `if` condition only works when the
array has exactly one element; otherwise Python raises `ValueError`
("truth value of an array ... is ambiguous"). -/
def errLtTol (e : ErrVal) (tolerance : ℚ) : Except PyErr Bool :=
  match e with
  | .scalarSq q => .ok (decide (0 < tolerance ∧ q < tolerance ^ 2))
  | .infinite => .ok false
  | .arrAbsSq qs =>
    if qs.length = 1 then
      .ok (decide (0 < tolerance ∧ qs.headI < tolerance ^ 2))
    else .error .valueError

/-- The `for iteration in range(max_iterations)` loop of the source,
recursing on the number of remaining iterations.  State: the current
`dimension`, `previous_result`, and the instance's `convergence_history`.
Returns the final history, the number of `warnings.warn` calls executed, and
either the returned `(current_result, dimension)` pair or the exception that
propagated.  When the loop exhausts with no iteration executed
(`max_iterations = 0`), reading `current_result` raises
`UnboundLocalError` (modelled by `PyErr.nameError`). -/
def adaptiveLoop (computation_func : ℕ → Except PyErr PyVal) (tolerance : ℚ) :
    (fuel dimension : ℕ) → Option PyVal → List LogEntry →
    List LogEntry × ℕ × Except PyErr (PyVal × ℕ)
  | 0, dimension, some current_result, hist => (hist, 1, .ok (current_result, dimension))
  | 0, _, none, hist => (hist, 0, .error .nameError)
  | fuel + 1, dimension, previous_result, hist =>
    match computation_func dimension with
    | .error e => (hist, 0, .error e)
    | .ok current_result =>
      match previous_result with
      | none =>
        adaptiveLoop computation_func tolerance fuel (dimension * 2) (some current_result) hist
      | some prev =>
        match computeError current_result prev with
        | .error e => (hist, 0, .error e)
        | .ok err =>
          let hist' := hist ++ [⟨dimension, err, current_result⟩]
          match errLtTol err tolerance with
          | .error e => (hist', 0, .error e)
          | .ok true => (hist', 0, .ok (current_result, dimension))
          | .ok false =>
            adaptiveLoop computation_func tolerance fuel (dimension * 2)
              (some current_result) hist'

/-- Lines 54-95 of the source: `adaptive_convergence(computation_func,
tolerance, max_iterations)` starting from `dimension = 10` and
`previous_result = None`, with the instance's `convergence_history` passed
in and returned as explicit state. -/
def adaptive_convergence (computation_func : ℕ → Except PyErr PyVal) (tolerance : ℚ)
    (max_iterations : ℕ) (convergence_history : List LogEntry) :
    List LogEntry × ℕ × Except PyErr (PyVal × ℕ) :=
  adaptiveLoop computation_func tolerance max_iterations 10 none convergence_history

/-- Lift a never-raising `computation_func` into the fallible signature. -/
def pureF (f : ℕ → PyVal) : ℕ → Except PyErr PyVal := fun n => Except.ok (f n)

/-- The error computation performed at iteration `k ≥ 1` of a run with a
pure compute function: iteration `k` compares the result at size `10 * 2^k`
with the previous result at size `10 * 2^(k-1)`. -/
def stepErr (f : ℕ → PyVal) (k : ℕ) : Except PyErr ErrVal :=
  computeError (f (10 * 2 ^ k)) (f (10 * 2 ^ (k - 1)))

/-- The error value recorded at iteration `k` (junk `infinite` when the
error computation raises; never used on that branch). -/
def errAt (f : ℕ → PyVal) (k : ℕ) : ErrVal :=
  match stepErr f k with
  | .ok e => e
  | .error _ => .infinite

/-- Iteration `k` raises no exception: the error computation succeeds and
the tolerance test on the resulting error value succeeds. -/
def stepSafe (f : ℕ → PyVal) (tolerance : ℚ) (k : ℕ) : Bool :=
  match stepErr f k with
  | .ok e =>
    match errLtTol e tolerance with
    | .ok _ => true
    | .error _ => false
  | .error _ => false

/-- Iteration `k` passes the tolerance test `error < tolerance`. -/
def stepOk (f : ℕ → PyVal) (tolerance : ℚ) (k : ℕ) : Bool :=
  match stepErr f k with
  | .ok e =>
    match errLtTol e tolerance with
    | .ok b => b
    | .error _ => false
  | .error _ => false

/-- The history record appended at iteration `k ≥ 1` of a pure run. -/
def entryAt (f : ℕ → PyVal) (k : ℕ) : LogEntry :=
  ⟨10 * 2 ^ k, errAt f k, f (10 * 2 ^ k)⟩

/-- Scan iterations `s, s+1, ...` (for `cnt` steps) for the first one that
passes the tolerance test. -/
def convIterAux (f : ℕ → PyVal) (tolerance : ℚ) : ℕ → ℕ → Option ℕ
  | _, 0 => none
  | s, cnt + 1 => if stepOk f tolerance s then some s else convIterAux f tolerance (s + 1) cnt

/-- The 1-indexed compute call at which the tolerance check first succeeds
in a run of `max_iterations = m` iterations (the check at iteration `k`
succeeds on the `k+1`-st compute call).  When no check succeeds within the
run, the claim treats the value as unbounded; since it is only ever used
inside `min m _`, it is capped at `m` here. -/
def convIter (f : ℕ → PyVal) (tolerance : ℚ) (m : ℕ) : ℕ :=
  match convIterAux f tolerance 1 (m - 1) with
  | some k => k + 1
  | none => m

/-- A compute function that behaves like the pure `g` except that the call
at size `10 * 2^j` raises exception `e` (claim C9). -/
def failAt (g : ℕ → PyVal) (j : ℕ) (e : PyErr) : ℕ → Except PyErr PyVal :=
  fun n => if n = 10 * 2 ^ j then .error e else .ok (g n)

/-- The elementwise difference of two rational lists, as a list of reals. -/
def diffList (xs ys : List ℚ) : List ℝ :=
  (List.zipWith (fun x y => x - y) xs ys).map (Rat.cast : ℚ → ℝ)

/-- The elementwise difference of two rational lists as a Euclidean vector,
used to state that the array distance is the L2 norm (claim C3). -/
def vecDiff (xs ys : List ℚ) : EuclideanSpace ℝ (Fin (diffList xs ys).length) :=
  fun i => (diffList xs ys).get i

/-! ## Characterization of the loop on pure compute functions -/

/-- A run segment in which every remaining iteration is exception-free and
fails the tolerance test walks to exhaustion: it appends one history record
per iteration, fires the warning once, and returns the last computed result
together with the already-doubled dimension. -/
theorem adaptiveLoop_none (f : ℕ → PyVal) (tol : ℚ) :
    ∀ (fuel : ℕ) (j : ℕ) (hist : List LogEntry),
    (∀ i, i ≤ j + fuel → j + 1 ≤ i → stepSafe f tol i = true) →
    (∀ i, i ≤ j + fuel → j + 1 ≤ i → stepOk f tol i = false) →
    adaptiveLoop (pureF f) tol fuel (10 * 2 ^ (j + 1)) (some (f (10 * 2 ^ j))) hist =
      (hist ++ (List.range' (j + 1) fuel).map (entryAt f), 1,
        Except.ok (f (10 * 2 ^ (j + fuel)), 10 * 2 ^ (j + fuel + 1))) := by
  intro fuel
  induction fuel with
  | zero =>
    intro j hist _ _
    simp [adaptiveLoop, List.range']
  | succ fuel ih =>
    intro j hist hsafe hok
    have hs := hsafe (j + 1) (by omega) (by omega)
    have hk := hok (j + 1) (by omega) (by omega)
    cases h1 : stepErr f (j + 1) with
    | error e => simp [stepSafe, h1] at hs
    | ok e =>
      cases h2 : errLtTol e tol with
      | error e2 => simp [stepSafe, h1, h2] at hs
      | ok b =>
        have hb : b = false := by simpa [stepOk, h1, h2] using hk
        subst hb
        have h1' : computeError (f (10 * 2 ^ (j + 1))) (f (10 * 2 ^ j)) = Except.ok e := h1
        simp only [adaptiveLoop, pureF, h1', h2]
        rw [show 10 * 2 ^ (j + 1) * 2 = 10 * 2 ^ (j + 1 + 1) by ring]
        rw [ih (j + 1) (hist ++ [LogEntry.mk (10 * 2 ^ (j + 1)) e (f (10 * 2 ^ (j + 1)))])
          (fun i hi1 hi2 => hsafe i (by omega) (by omega))
          (fun i hi1 hi2 => hok i (by omega) (by omega))]
        rw [List.range'_succ]
        simp [entryAt, errAt, h1]
        exact ⟨by rw [show j + 1 + fuel = j + (fuel + 1) from by omega], by omega⟩

/-- A run segment whose first passing iteration is `k` stops at `k`: it
appends the records of iterations `j+1 .. k`, fires no warning, and returns
the result computed at dimension `10 * 2^k` together with that same,
un-doubled dimension. -/
theorem adaptiveLoop_some (f : ℕ → PyVal) (tol : ℚ) (k : ℕ) :
    ∀ (fuel : ℕ) (j : ℕ) (hist : List LogEntry),
    j + 1 ≤ k → k ≤ j + fuel →
    (∀ i, i ≤ k → j + 1 ≤ i → stepSafe f tol i = true) →
    (∀ i, i < k → j + 1 ≤ i → stepOk f tol i = false) →
    stepOk f tol k = true →
    adaptiveLoop (pureF f) tol fuel (10 * 2 ^ (j + 1)) (some (f (10 * 2 ^ j))) hist =
      (hist ++ (List.range' (j + 1) (k - j)).map (entryAt f), 0,
        Except.ok (f (10 * 2 ^ k), 10 * 2 ^ k)) := by
  intro fuel
  induction fuel with
  | zero =>
    intro j hist hjk hkf _ _ _
    omega
  | succ fuel ih =>
    intro j hist hjk hkf hsafe hbefore hk
    have hs := hsafe (j + 1) (by omega) (by omega)
    cases h1 : stepErr f (j + 1) with
    | error e => simp [stepSafe, h1] at hs
    | ok e =>
      cases h2 : errLtTol e tol with
      | error e2 => simp [stepSafe, h1, h2] at hs
      | ok b =>
        have h1' : computeError (f (10 * 2 ^ (j + 1))) (f (10 * 2 ^ j)) = Except.ok e := h1
        rcases Nat.eq_or_lt_of_le hjk with heq | hlt
        · -- the very next iteration is the passing one
          have hb : b = true := by
            have := hk
            rw [← heq] at this
            simpa [stepOk, h1, h2] using this
          subst hb
          simp only [adaptiveLoop, pureF, h1', h2]
          rw [← heq]
          have hk1 : j + 1 - j = 1 := by omega
          rw [hk1, List.range'_succ]
          simp [entryAt, errAt, h1]
        · -- iteration j+1 fails; recurse
          have hb : b = false := by
            have := hbefore (j + 1) (by omega) (by omega)
            simpa [stepOk, h1, h2] using this
          subst hb
          simp only [adaptiveLoop, pureF, h1', h2]
          rw [show 10 * 2 ^ (j + 1) * 2 = 10 * 2 ^ (j + 1 + 1) from by ring]
          rw [ih (j + 1) (hist ++ [LogEntry.mk (10 * 2 ^ (j + 1)) e (f (10 * 2 ^ (j + 1)))])
            (by omega) (by omega)
            (fun i hi1 hi2 => hsafe i (by omega) (by omega))
            (fun i hi1 hi2 => hbefore i (by omega) (by omega)) hk]
          have hsplit : k - j = (k - (j + 1)) + 1 := by omega
          rw [hsplit, List.range'_succ]
          simp [entryAt, errAt, h1]

/-- Doubling dimensions are injective: distinct iteration indices use
distinct sizes. -/
theorem dim_ne {a b : ℕ} (h : a ≠ b) : 10 * 2 ^ a ≠ 10 * 2 ^ b := by
  intro hab
  exact h (Nat.pow_right_injective (le_refl 2) (Nat.eq_of_mul_eq_mul_left (by norm_num) hab))

/-- A run segment driven by `failAt g j e` in which every iteration before
`j` is exception-free and fails the tolerance test reaches the call at size
`10 * 2^j`, where the exception `e` raised by the compute function
propagates unchanged; only the records of the completed iterations remain
appended. -/
theorem adaptiveLoop_err (g : ℕ → PyVal) (tol : ℚ) (j : ℕ) (e : PyErr)
    (hsafe : ∀ i, i < j → 1 ≤ i → stepSafe g tol i = true)
    (hfalse : ∀ i, i < j → 1 ≤ i → stepOk g tol i = false) :
    ∀ (fuel : ℕ) (i : ℕ) (hist : List LogEntry), i + 1 ≤ j → j ≤ i + fuel →
    adaptiveLoop (failAt g j e) tol fuel (10 * 2 ^ (i + 1)) (some (g (10 * 2 ^ i))) hist =
      (hist ++ (List.range' (i + 1) (j - 1 - i)).map (entryAt g), 0, Except.error e) := by
  intro fuel
  induction fuel with
  | zero =>
    intro i hist hij hji
    omega
  | succ fuel ih =>
    intro i hist hij hji
    rcases Nat.eq_or_lt_of_le hij with heq | hlt
    · -- the very next call raises
      have hfa : failAt g j e (10 * 2 ^ (i + 1)) = Except.error e := by
        simp [failAt, heq]
      simp only [adaptiveLoop, hfa]
      rw [show j - 1 - i = 0 from by omega]
      simp [List.range']
    · -- iteration i+1 completes and fails the test; recurse
      have hfa : failAt g j e (10 * 2 ^ (i + 1)) = Except.ok (g (10 * 2 ^ (i + 1))) := by
        simp only [failAt]
        rw [if_neg (dim_ne (by omega))]
      have hs := hsafe (i + 1) (by omega) (by omega)
      cases h1 : stepErr g (i + 1) with
      | error e2 => simp [stepSafe, h1] at hs
      | ok ev =>
        cases h2 : errLtTol ev tol with
        | error e2 => simp [stepSafe, h1, h2] at hs
        | ok b =>
          have hb : b = false := by
            have := hfalse (i + 1) (by omega) (by omega)
            simpa [stepOk, h1, h2] using this
          subst hb
          have h1' : computeError (g (10 * 2 ^ (i + 1))) (g (10 * 2 ^ i)) = Except.ok ev := h1
          simp only [adaptiveLoop, hfa, h1', h2]
          rw [show 10 * 2 ^ (i + 1) * 2 = 10 * 2 ^ (i + 1 + 1) from by ring]
          rw [ih (i + 1) (hist ++ [LogEntry.mk (10 * 2 ^ (i + 1)) ev (g (10 * 2 ^ (i + 1)))])
            (by omega) (by omega)]
          rw [show j - 1 - i = (j - 1 - (i + 1)) + 1 from by omega, List.range'_succ]
          simp [entryAt, errAt, h1]

/-- The loop only ever appends to the history it is given, whatever the
compute function does (success, non-convergence, or any exception). -/
theorem adaptiveLoop_append (f : ℕ → Except PyErr PyVal) (tol : ℚ) :
    ∀ (fuel dim : ℕ) (prev : Option PyVal) (hist : List LogEntry),
    ∃ E, (adaptiveLoop f tol fuel dim prev hist).1 = hist ++ E := by
  intro fuel
  induction fuel with
  | zero =>
    intro dim prev hist
    cases prev <;> exact ⟨[], by simp [adaptiveLoop]⟩
  | succ fuel ih =>
    intro dim prev hist
    cases hf : f dim with
    | error e => exact ⟨[], by simp [adaptiveLoop, hf]⟩
    | ok cur =>
      cases prev with
      | none =>
        obtain ⟨E, hE⟩ := ih (dim * 2) (some cur) hist
        exact ⟨E, by simp [adaptiveLoop, hf, hE]⟩
      | some p =>
        cases hce : computeError cur p with
        | error e => exact ⟨[], by simp [adaptiveLoop, hf, hce]⟩
        | ok err =>
          cases hlt : errLtTol err tol with
          | error e =>
            exact ⟨[LogEntry.mk dim err cur], by simp [adaptiveLoop, hf, hce, hlt]⟩
          | ok b =>
            cases b with
            | true =>
              exact ⟨[LogEntry.mk dim err cur], by simp [adaptiveLoop, hf, hce, hlt]⟩
            | false =>
              obtain ⟨E, hE⟩ := ih (dim * 2) (some cur) (hist ++ [LogEntry.mk dim err cur])
              exact ⟨[LogEntry.mk dim err cur] ++ E, by
                simp [adaptiveLoop, hf, hce, hlt, hE]⟩

/-- First-iteration unfolding: with `max_iterations = m+1`, a pure run
computes `f 10`, appends nothing (no previous result exists yet), and
continues with dimension 20. -/
theorem adaptive_convergence_unfold (f : ℕ → PyVal) (tol : ℚ) (m : ℕ)
    (hist : List LogEntry) :
    adaptive_convergence (pureF f) tol (m + 1) hist =
      adaptiveLoop (pureF f) tol m 20 (some (f 10)) hist := by
  simp [adaptive_convergence, adaptiveLoop, pureF]

/-- A fully non-converging pure run: every iteration is exception-free and
fails the tolerance test.  The run appends `m - 1` records, warns exactly
once, and returns `(f (10 * 2^(m-1)), 10 * 2^m)`: the last computed result
together with the doubled size that was never used. -/
theorem adaptive_convergence_none (f : ℕ → PyVal) (tol : ℚ) (m : ℕ)
    (hist : List LogEntry) (hm : 1 ≤ m)
    (hsafe : ∀ i, i ≤ m - 1 → 1 ≤ i → stepSafe f tol i = true)
    (hfail : ∀ i, i ≤ m - 1 → 1 ≤ i → stepOk f tol i = false) :
    adaptive_convergence (pureF f) tol m hist =
      (hist ++ (List.range' 1 (m - 1)).map (entryAt f), 1,
        Except.ok (f (10 * 2 ^ (m - 1)), 10 * 2 ^ m)) := by
  obtain ⟨m', rfl⟩ : ∃ m', m = m' + 1 := ⟨m - 1, by omega⟩
  rw [adaptive_convergence_unfold]
  have h20 : (20 : ℕ) = 10 * 2 ^ (0 + 1) := by norm_num
  have h10 : (10 : ℕ) = 10 * 2 ^ 0 := by norm_num
  rw [h20, show (f 10) = f (10 * 2 ^ 0) from by rw [← h10]]
  rw [adaptiveLoop_none f tol m' 0 hist
    (fun i hi1 hi2 => hsafe i (by omega) (by omega))
    (fun i hi1 hi2 => hfail i (by omega) (by omega))]
  simp

/-- A pure run whose first passing iteration is `k ≤ m - 1`: the run stops
at iteration `k`, appends exactly the records of iterations `1 .. k`, warns
zero times, and returns the result computed at size `10 * 2^k` together
with that same size. -/
theorem adaptive_convergence_some (f : ℕ → PyVal) (tol : ℚ) (m k : ℕ)
    (hist : List LogEntry) (hm : 1 ≤ m) (hk1 : 1 ≤ k) (hkm : k ≤ m - 1)
    (hsafe : ∀ i, i ≤ k → 1 ≤ i → stepSafe f tol i = true)
    (hbefore : ∀ i, i < k → 1 ≤ i → stepOk f tol i = false)
    (hk : stepOk f tol k = true) :
    adaptive_convergence (pureF f) tol m hist =
      (hist ++ (List.range' 1 k).map (entryAt f), 0,
        Except.ok (f (10 * 2 ^ k), 10 * 2 ^ k)) := by
  obtain ⟨m', rfl⟩ : ∃ m', m = m' + 1 := ⟨m - 1, by omega⟩
  rw [adaptive_convergence_unfold]
  have h20 : (20 : ℕ) = 10 * 2 ^ (0 + 1) := by norm_num
  have h10 : (10 : ℕ) = 10 * 2 ^ 0 := by norm_num
  rw [h20, show (f 10) = f (10 * 2 ^ 0) from by rw [← h10]]
  rw [adaptiveLoop_some f tol k m' 0 hist (by omega) (by omega)
    (fun i hi1 hi2 => hsafe i (by omega) (by omega))
    (fun i hi1 hi2 => hbefore i (by omega) (by omega)) hk]
  simp

/-- When the scan `convIterAux` finds `k`, then `k` is in range, passes the
tolerance test, and is the first index in range to do so. -/
theorem convIterAux_some (f : ℕ → PyVal) (tol : ℚ) :
    ∀ (cnt s k : ℕ), convIterAux f tol s cnt = some k →
      s ≤ k ∧ k < s + cnt ∧ stepOk f tol k = true ∧
        ∀ i, s ≤ i → i < k → stepOk f tol i = false := by
  intro cnt
  induction cnt with
  | zero => intro s k h; simp [convIterAux] at h
  | succ cnt ih =>
    intro s k h
    by_cases hs : stepOk f tol s = true
    · rw [convIterAux, if_pos hs] at h
      obtain rfl : s = k := by simpa using h
      exact ⟨le_refl s, by omega, hs, fun i hi1 hi2 => by omega⟩
    · rw [convIterAux, if_neg hs] at h
      obtain ⟨h1, h2, h3, h4⟩ := ih (s + 1) k h
      refine ⟨by omega, by omega, h3, fun i hi1 hi2 => ?_⟩
      rcases Nat.eq_or_lt_of_le hi1 with heq | hlt
      · subst heq; simpa using hs
      · exact h4 i (by omega) hi2

/-- When the scan `convIterAux` finds nothing, every index in range fails
the tolerance test. -/
theorem convIterAux_none (f : ℕ → PyVal) (tol : ℚ) :
    ∀ (cnt s : ℕ), convIterAux f tol s cnt = none →
      ∀ i, s ≤ i → i < s + cnt → stepOk f tol i = false := by
  intro cnt
  induction cnt with
  | zero => intro s _ i hi1 hi2; omega
  | succ cnt ih =>
    intro s h i hi1 hi2
    by_cases hs : stepOk f tol s = true
    · rw [convIterAux, if_pos hs] at h; exact absurd h (by simp)
    · rcases Nat.eq_or_lt_of_le hi1 with heq | hlt
      · subst heq; simpa using hs
      · rw [convIterAux, if_neg hs] at h
        exact ih (s + 1) h i (by omega) (by omega)

/-! ## Faithfulness of the error encoding -/

/-- The Boolean tolerance test used by the embedded driver on a scalar
error agrees with the real-number comparison performed by the Python code:
the encoded error `Real.sqrt q` is below the tolerance exactly when the
embedded test answers `true`. -/
theorem errLtTol_scalarSq_iff (q tol : ℚ) :
    errLtTol (ErrVal.scalarSq q) tol = Except.ok true ↔ Real.sqrt q < (tol : ℝ) := by
  simp only [errLtTol, Except.ok.injEq, decide_eq_true_eq]
  constructor
  · rintro ⟨h1, h2⟩
    rw [Real.sqrt_lt' (by exact_mod_cast h1)]
    exact_mod_cast h2
  · intro h
    have htol : (0 : ℝ) < tol := lt_of_le_of_lt (Real.sqrt_nonneg _) h
    refine ⟨by exact_mod_cast htol, ?_⟩
    have := (Real.sqrt_lt' htol).mp h
    exact_mod_cast this

/-- A sum of a list of squares-plus-squares terms is nonnegative. -/
theorem sum_map_nonneg (g : ℚ → ℚ) (hg : ∀ x, 0 ≤ g x) (l : List ℚ) :
    0 ≤ (l.map g).sum := by
  apply List.sum_nonneg
  intro x hx
  obtain ⟨y, _, rfl⟩ := List.mem_map.mp hx
  exact hg y

/-- The sum of squared elementwise differences is nonnegative. -/
theorem zip_sq_sum_nonneg : ∀ (xs ys : List ℚ),
    0 ≤ (List.zipWith (fun x y => (x - y) ^ 2) xs ys).sum := by
  intro xs
  induction xs with
  | nil => intro ys; simp
  | cons x xs ih =>
    intro ys
    cases ys with
    | nil => simp
    | cons y ys => simpa using add_nonneg (sq_nonneg (x - y)) (ih ys)

/-- Every scalar error value produced by the error computation is the
square root of a nonnegative rational, so the encoding `ErrVal.scalarSq`
never holds a negative radicand. -/
theorem computeError_scalarSq_nonneg (c p : PyVal) (q : ℚ)
    (h : computeError c p = Except.ok (ErrVal.scalarSq q)) : 0 ≤ q := by
  cases c with
  | num cr ci =>
    cases p with
    | num pr pi =>
      simp only [computeError, Except.ok.injEq, ErrVal.scalarSq.injEq] at h
      subst h
      positivity
    | arr ys => simp [computeError] at h
    | str s => simp [computeError] at h
  | arr xs =>
    cases p with
    | num pr pi =>
      simp only [computeError, Except.ok.injEq, ErrVal.scalarSq.injEq] at h
      subst h
      exact sum_map_nonneg _ (fun x => by positivity) xs
    | arr ys =>
      simp only [computeError] at h
      split at h
      · simp only [Except.ok.injEq, ErrVal.scalarSq.injEq] at h
        subst h
        exact zip_sq_sum_nonneg xs ys
      · split at h
        · simp only [Except.ok.injEq, ErrVal.scalarSq.injEq] at h
          subst h
          exact sum_map_nonneg _ (fun x => by positivity) ys
        · split at h
          · simp only [Except.ok.injEq, ErrVal.scalarSq.injEq] at h
            subst h
            exact sum_map_nonneg _ (fun x => by positivity) xs
          · simp at h
    | str s => simp [computeError] at h
  | str s => simp [computeError] at h

/-- The rational sum of squared differences computed by the embedded driver
for two equal-length arrays is, after casting to the reals, the sum of
squares of the entries of the real difference vector. -/
theorem zip_sq_sum_cast : ∀ (xs ys : List ℚ),
    (((List.zipWith (fun x y => (x - y) ^ 2) xs ys).sum : ℚ) : ℝ) =
      ∑ i : Fin (diffList xs ys).length, ((diffList xs ys).get i) ^ 2 := by
  intro xs
  induction xs with
  | nil => intro ys; simp [diffList]
  | cons x xs ih =>
    intro ys
    cases ys with
    | nil =>
      show ((([] : List ℚ).sum : ℚ) : ℝ) =
        ∑ i : Fin (List.length ([] : List ℝ)), (([] : List ℝ).get i) ^ 2
      simp
    | cons y ys =>
      simp only [diffList, List.zipWith_cons_cons, List.sum_cons, List.map_cons,
        List.length_cons, Fin.sum_univ_succ, List.get]
      push_cast
      rw [show (List.map (Rat.cast : ℚ → ℝ) (List.zipWith (fun x y => x - y) xs ys)) =
        diffList xs ys from rfl, ← ih ys]
      push_cast
      ring

/-- The square root of the rational sum of squared differences of two
equal-length arrays is the Euclidean (L2) norm of their elementwise
difference vector. -/
theorem sqrt_zip_sum_eq_norm (xs ys : List ℚ) :
    Real.sqrt (((List.zipWith (fun x y => (x - y) ^ 2) xs ys).sum : ℚ) : ℝ) =
      ‖vecDiff xs ys‖ := by
  rw [EuclideanSpace.norm_eq, zip_sq_sum_cast]
  congr 1
  refine Finset.sum_congr rfl fun i _ => ?_
  simp [vecDiff, Real.norm_eq_abs, sq_abs]


/-! ## Claims -/

/-- Claim C1, counterexample: for `compute(n) = n` with `max_iterations = 3`
and a tolerance the run never meets, the driver does NOT return `(80, 80)`
as the claim states; it returns `(40, 80)` — the last result was computed at
size 40, and the returned size 80 is the doubled size that was never used. -/
theorem claim1_counterexample :
    (adaptive_convergence (fun n => Except.ok (PyVal.num (n : ℚ) 0)) (1/1000000) 3 []).2.2 =
      Except.ok (PyVal.num 40 0, 80) ∧
    (adaptive_convergence (fun n => Except.ok (PyVal.num (n : ℚ) 0)) (1/1000000) 3 []).2.2 ≠
      Except.ok (PyVal.num 80 0, 80) := by
  constructor <;>
    norm_num [adaptive_convergence, adaptiveLoop, computeError, errLtTol]

/-- Claim C1 (amended): for every compute function, tolerance > 0 and
`max_iterations = m ≥ 1`, if no iteration achieves a distance below the
tolerance, `adaptive_convergence` emits exactly one non-fatal warning and
returns `(last_computed_result, 2 * last_size_used)`: the first component is
the result computed at the last size `10 * 2^(m-1)` of the doubling sequence
starting at 10, and the returned size `10 * 2^m` is the doubled size that
was never used.  In particular for `compute(n) = n` with `max_iterations=3`
the return value is `(40, 80)`, not `(80, 80)`. -/
theorem claim1_amended (f : ℕ → PyVal) (tol : ℚ) (m : ℕ) (hm : 1 ≤ m) (_htol : 0 < tol)
    (hsafe : ∀ i, i ≤ m - 1 → 1 ≤ i → stepSafe f tol i = true)
    (hfail : ∀ i, i ≤ m - 1 → 1 ≤ i → stepOk f tol i = false) :
    adaptive_convergence (pureF f) tol m [] =
      ((List.range' 1 (m - 1)).map (entryAt f), 1,
        Except.ok (f (10 * 2 ^ (m - 1)), 10 * 2 ^ m)) := by
  simpa using adaptive_convergence_none f tol m [] hm hsafe hfail

/-- Witness for C1 (amended) at `compute(n) = n`, tolerance `10⁻⁶`,
`max_iterations = 3`. -/
theorem claim1_witness :
    ((1 : ℕ) ≤ 3) ∧ ((0 : ℚ) < 1/1000000) ∧
    (∀ i, i ≤ 3 - 1 → 1 ≤ i → stepSafe (fun n => PyVal.num (n : ℚ) 0) (1/1000000) i = true) ∧
    (∀ i, i ≤ 3 - 1 → 1 ≤ i → stepOk (fun n => PyVal.num (n : ℚ) 0) (1/1000000) i = false) ∧
    adaptive_convergence (pureF (fun n => PyVal.num (n : ℚ) 0)) (1/1000000) 3 [] =
      ((List.range' 1 (3 - 1)).map (entryAt (fun n => PyVal.num (n : ℚ) 0)), 1,
        Except.ok (PyVal.num ((10 * 2 ^ (3 - 1) : ℕ) : ℚ) 0, 10 * 2 ^ 3)) :=
  ⟨by decide, by norm_num,
    by intro i hi1 hi2; interval_cases i <;>
      norm_num [stepSafe, stepErr, computeError, errLtTol],
    by intro i hi1 hi2; interval_cases i <;>
      norm_num [stepOk, stepErr, computeError, errLtTol],
    claim1_amended (fun n => PyVal.num (n : ℚ) 0) (1/1000000) 3
      (by decide) (by norm_num)
      (by intro i hi1 hi2; interval_cases i <;>
        norm_num [stepSafe, stepErr, computeError, errLtTol])
      (by intro i hi1 hi2; interval_cases i <;>
        norm_num [stepOk, stepErr, computeError, errLtTol])⟩

/-- Claim C2: on the first iteration at which a previous result exists and
the distance is strictly below the tolerance, the driver returns
`(current, size)` immediately, where `size = 10 * 2^k` is exactly the size
at which `current` was computed (no further doubling), the warning never
fires, and the log stops at that iteration.  The comparison is strict: a
distance exactly equal to the tolerance does not pass the test. -/
theorem claim2 (f : ℕ → PyVal) (tol : ℚ) (m k : ℕ) (hist : List LogEntry)
    (hm : 1 ≤ m) (hk1 : 1 ≤ k) (hkm : k ≤ m - 1)
    (hsafe : ∀ i, i ≤ k → 1 ≤ i → stepSafe f tol i = true)
    (hbefore : ∀ i, i < k → 1 ≤ i → stepOk f tol i = false)
    (hk : stepOk f tol k = true) :
    adaptive_convergence (pureF f) tol m hist =
      (hist ++ (List.range' 1 k).map (entryAt f), 0,
        Except.ok (f (10 * 2 ^ k), 10 * 2 ^ k)) ∧
    errLtTol (ErrVal.scalarSq (tol ^ 2)) tol = Except.ok false := by
  refine ⟨adaptive_convergence_some f tol m k hist hm hk1 hkm hsafe hbefore hk, ?_⟩
  simp [errLtTol]

/-- Witness for C2 at `compute(n) = 1/n`, tolerance `1/100`,
`max_iterations = 10`: the first passing iteration is `k = 4` (size 160). -/
theorem claim2_witness :
    ((1 : ℕ) ≤ 10) ∧ ((1 : ℕ) ≤ 4) ∧ ((4 : ℕ) ≤ 10 - 1) ∧
    (∀ i, i ≤ 4 → 1 ≤ i → stepSafe (fun n => PyVal.num (1 / (n : ℚ)) 0) (1/100) i = true) ∧
    (∀ i, i < 4 → 1 ≤ i → stepOk (fun n => PyVal.num (1 / (n : ℚ)) 0) (1/100) i = false) ∧
    stepOk (fun n => PyVal.num (1 / (n : ℚ)) 0) (1/100) 4 = true ∧
    (adaptive_convergence (pureF (fun n => PyVal.num (1 / (n : ℚ)) 0)) (1/100) 10 [] =
      ([] ++ (List.range' 1 4).map (entryAt (fun n => PyVal.num (1 / (n : ℚ)) 0)), 0,
        Except.ok (PyVal.num (1 / ((10 * 2 ^ 4 : ℕ) : ℚ)) 0, 10 * 2 ^ 4)) ∧
      errLtTol (ErrVal.scalarSq ((1/100 : ℚ) ^ 2)) (1/100) = Except.ok false) :=
  ⟨by decide, by decide, by decide,
    by intro i hi1 hi2; interval_cases i <;>
      norm_num [stepSafe, stepErr, computeError, errLtTol],
    by intro i hi1 hi2; interval_cases i <;>
      norm_num [stepOk, stepErr, computeError, errLtTol],
    by norm_num [stepOk, stepErr, computeError, errLtTol],
    claim2 (fun n => PyVal.num (1 / (n : ℚ)) 0) (1/100) 10 4 []
      (by decide) (by decide) (by decide)
      (by intro i hi1 hi2; interval_cases i <;>
        norm_num [stepSafe, stepErr, computeError, errLtTol])
      (by intro i hi1 hi2; interval_cases i <;>
        norm_num [stepOk, stepErr, computeError, errLtTol])
      (by norm_num [stepOk, stepErr, computeError, errLtTol])⟩

/-- Claim C10: with `max_iterations = 1` the driver calls the compute
function once at size 10, never compares two results, appends nothing to
the log, emits the non-convergence warning, and returns `(compute(10), 20)`
— so a success return (warning count 0) requires at least two iterations. -/
theorem claim10 (f : ℕ → PyVal) (tol : ℚ) (hist : List LogEntry) :
    adaptive_convergence (pureF f) tol 1 hist = (hist, 1, Except.ok (f 10, 20)) := rfl

/-- Claim C3: the distance used by the driver is (i) the absolute
difference — the complex modulus — when the current result is a scalar and
the previous one is a scalar; (ii) the Euclidean (L2) norm of the
elementwise difference when the current and previous results are dense
numeric arrays of equal length; and (iii) unbounded (`float('inf')`, which
never satisfies any tolerance) when the current result is of any other
type, whatever the previous result was. -/
theorem claim3 (a b c d : ℚ) (xs ys : List ℚ) (s : String) (prev : PyVal) (tol : ℚ)
    (hlen : xs.length = ys.length) :
    (computeError (PyVal.num a b) (PyVal.num c d) =
        Except.ok (ErrVal.scalarSq ((a - c) ^ 2 + (b - d) ^ 2)) ∧
      Real.sqrt (((a - c) ^ 2 + (b - d) ^ 2 : ℚ) : ℝ) =
        Complex.abs ⟨(a : ℝ) - (c : ℝ), (b : ℝ) - (d : ℝ)⟩) ∧
    (∃ q, computeError (PyVal.arr xs) (PyVal.arr ys) = Except.ok (ErrVal.scalarSq q) ∧
      Real.sqrt (q : ℝ) = ‖vecDiff xs ys‖) ∧
    (computeError (PyVal.str s) prev = Except.ok ErrVal.infinite ∧
      errLtTol ErrVal.infinite tol = Except.ok false) := by
  refine ⟨⟨rfl, ?_⟩,
    ⟨(List.zipWith (fun x y => (x - y) ^ 2) xs ys).sum, ?_, sqrt_zip_sum_eq_norm xs ys⟩,
    rfl, rfl⟩
  · rw [Complex.abs_apply, Complex.normSq_mk]
    congr 1
    push_cast
    ring
  · simp [computeError, hlen]

/-- Witness for C3 at scalars `1` and `3`, arrays `[1, 2]` and `[0, 0]`,
current string result `"x"` against previous scalar `0`, tolerance `1`. -/
theorem claim3_witness :
    ([(1 : ℚ), 2].length = [(0 : ℚ), 0].length) ∧
    ((computeError (PyVal.num 1 0) (PyVal.num 3 0) =
        Except.ok (ErrVal.scalarSq (((1 : ℚ) - 3) ^ 2 + ((0 : ℚ) - 0) ^ 2)) ∧
      Real.sqrt (((((1 : ℚ) - 3) ^ 2 + ((0 : ℚ) - 0) ^ 2 : ℚ)) : ℝ) =
        Complex.abs ⟨((1 : ℚ) : ℝ) - ((3 : ℚ) : ℝ), ((0 : ℚ) : ℝ) - ((0 : ℚ) : ℝ)⟩) ∧
    (∃ q, computeError (PyVal.arr [1, 2]) (PyVal.arr [0, 0]) =
        Except.ok (ErrVal.scalarSq q) ∧
      Real.sqrt (q : ℝ) = ‖vecDiff [1, 2] [0, 0]‖) ∧
    (computeError (PyVal.str "x") (PyVal.num 0 0) = Except.ok ErrVal.infinite ∧
      errLtTol ErrVal.infinite 1 = Except.ok false)) :=
  ⟨rfl, claim3 1 0 3 0 [1, 2] [0, 0] "x" (PyVal.num 0 0) 1 rfl⟩

/-- Claim C4, counterexample: a compute function returning a string at size
10 and a number at size 20 makes the driver raise a `TypeError` (from
`abs(number - string)`), contradicting the claim that incomparable
successive results never raise a type error: the run does not complete via
the normal success or non-convergence path. -/
theorem claim4_counterexample :
    (adaptive_convergence
        (fun n => Except.ok (if n = 10 then PyVal.str "a" else PyVal.num 1 0))
        1 2 []).2.2 = Except.error PyErr.typeError := by
  norm_num [adaptive_convergence, adaptiveLoop, computeError]

/-- Claim C4 (amended): the unbounded-distance fallback applies only when
the CURRENT result's type is unrecognized (neither scalar nor array): such
a run never raises, never converges, and completes via the non-convergence
path with every logged error unbounded.  But when the current result is a
scalar and the previous result is a string, the subtraction raises a
`TypeError` that propagates (see the counterexample). -/
theorem claim4_amended (sf : ℕ → String) (tol : ℚ) (m : ℕ) (hist : List LogEntry)
    (hm : 1 ≤ m) (a b : ℚ) (s : String) :
    adaptive_convergence (pureF (fun n => PyVal.str (sf n))) tol m hist =
      (hist ++ (List.range' 1 (m - 1)).map (entryAt (fun n => PyVal.str (sf n))), 1,
        Except.ok (PyVal.str (sf (10 * 2 ^ (m - 1))), 10 * 2 ^ m)) ∧
    computeError (PyVal.num a b) (PyVal.str s) = Except.error PyErr.typeError := by
  refine ⟨?_, rfl⟩
  exact adaptive_convergence_none (fun n => PyVal.str (sf n)) tol m hist hm
    (fun i _ _ => by simp [stepSafe, stepErr, computeError, errLtTol])
    (fun i _ _ => by simp [stepOk, stepErr, computeError, errLtTol])

/-- Witness for C4 (amended) at the constant string compute function,
tolerance `1`, `max_iterations = 2`. -/
theorem claim4_witness :
    ((1 : ℕ) ≤ 2) ∧
    (adaptive_convergence (pureF (fun _ => PyVal.str "x")) 1 2 [] =
      ([] ++ (List.range' 1 (2 - 1)).map (entryAt (fun _ => PyVal.str "x")), 1,
        Except.ok (PyVal.str "x", 10 * 2 ^ 2)) ∧
    computeError (PyVal.num 0 0) (PyVal.str "y") = Except.error PyErr.typeError) :=
  ⟨by decide, claim4_amended (fun _ => "x") 1 2 [] (by decide) 0 0 "y"⟩

/-- Claim C5, counterexample: for `compute(n) = 1/n` with tolerance `1/100`
and the default `max_iterations = 10`, the driver does NOT succeed at size
80: `|1/80 - 1/40| = 1/80 = 0.0125 ≥ 0.01` (the spec's value `0.003125` is
an arithmetic slip), so the first passing step is size 160 and the run
returns `(1/160, 160)`. -/
theorem claim5_counterexample :
    (adaptive_convergence (fun n => Except.ok (PyVal.num (1 / (n : ℚ)) 0)) (1/100) 10 []).2.2 ≠
      Except.ok (PyVal.num (1/80) 0, 80) ∧
    (adaptive_convergence (fun n => Except.ok (PyVal.num (1 / (n : ℚ)) 0)) (1/100) 10 []).2.2 =
      Except.ok (PyVal.num (1/160) 0, 160) := by
  constructor <;>
    norm_num [adaptive_convergence, adaptiveLoop, computeError, errLtTol]

/-- Claim C5 (amended): for `compute(n) = 1/n` with tolerance `1e-2` and
`max_iterations = 10`, the driver succeeds at size 160 — the first passing
step, since `|1/160 - 1/80| = 1/160 = 0.00625 < 0.01` — while size 40 fails
because `|1/40 - 1/20| = 1/40 = 0.025 ≥ 0.01` and size 80 also fails
because `|1/80 - 1/40| = 1/80 = 0.0125 ≥ 0.01`. -/
theorem claim5_amended :
    (adaptive_convergence (fun n => Except.ok (PyVal.num (1 / (n : ℚ)) 0)) (1/100) 10 []).2 =
      (0, Except.ok (PyVal.num (1/160) 0, 160)) ∧
    stepOk (fun n => PyVal.num (1 / (n : ℚ)) 0) (1/100) 2 = false ∧
    stepOk (fun n => PyVal.num (1 / (n : ℚ)) 0) (1/100) 3 = false ∧
    stepOk (fun n => PyVal.num (1 / (n : ℚ)) 0) (1/100) 4 = true := by
  refine ⟨?_, ?_, ?_, ?_⟩ <;>
    norm_num [adaptive_convergence, adaptiveLoop, computeError, errLtTol,
      stepOk, stepErr]

/-- Claim C6, counterexample: for `compute(n)` returning a constant array
of length `n` filled with `1/n`, the driver never computes the claimed
distance: the first comparison subtracts a length-10 array from a length-20
array, which numpy cannot broadcast, so the run raises `ValueError` instead
of producing `sqrt(n) * |1/n - 1/(n/2)|`. -/
theorem claim6_counterexample :
    (adaptive_convergence
        (fun n => Except.ok (PyVal.arr (List.replicate n (1 / (n : ℚ)))))
        (1/100) 2 []).2.2 = Except.error PyErr.valueError := by
  norm_num [adaptive_convergence, adaptiveLoop, computeError]

/-- Claim C6 (amended): the exact L2 formula holds for the equal-length
variant: for two constant arrays of common length `L` with entries `q` and
`r`, the distance computed by the driver's error computation is
`sqrt(L) * |q - r|` (instantiating `q = 1/n`, `r = 1/(n/2)` gives the
claim's formula); when the lengths differ as they do in an actual run, the
comparison raises instead (see the counterexample). -/
theorem claim6_amended (L : ℕ) (q r : ℚ) :
    ∃ s, computeError (PyVal.arr (List.replicate L q)) (PyVal.arr (List.replicate L r)) =
        Except.ok (ErrVal.scalarSq s) ∧
      Real.sqrt (s : ℝ) = Real.sqrt (L : ℝ) * |(q : ℝ) - (r : ℝ)| := by
  refine ⟨(List.zipWith (fun x y => (x - y) ^ 2)
    (List.replicate L q) (List.replicate L r)).sum, by simp [computeError], ?_⟩
  rw [List.zipWith_replicate, min_self, List.sum_replicate, nsmul_eq_mul]
  push_cast
  rw [Real.sqrt_mul (by positivity), Real.sqrt_sq_eq_abs]

/-- Claim C7: on a fresh driver instance (empty history) the first
iteration appends no log entry (a run with `max_iterations = 1` leaves the
log empty), and the final log length equals
`min(max_iterations, convergence_iteration) - 1`, where
`convergence_iteration` is the 1-indexed compute call at which the
tolerance check first succeeds (capped at `max_iterations` when it never
succeeds, so a fully non-converging run leaves `max_iterations - 1`
entries). -/
theorem claim7 (f : ℕ → PyVal) (tol : ℚ) (m : ℕ) (hm : 1 ≤ m)
    (hsafe : ∀ i, i ≤ m - 1 → 1 ≤ i → stepSafe f tol i = true) :
    ((adaptive_convergence (pureF f) tol m []).1).length =
      min m (convIter f tol m) - 1 ∧
    (adaptive_convergence (pureF f) tol 1 []).1 = [] := by
  refine ⟨?_, rfl⟩
  cases hscan : convIterAux f tol 1 (m - 1) with
  | some k =>
    obtain ⟨h1, h2, h3, h4⟩ := convIterAux_some f tol (m - 1) 1 k hscan
    rw [adaptive_convergence_some f tol m k [] hm h1 (by omega)
      (fun i hi1 hi2 => hsafe i (by omega) hi2)
      (fun i hi1 hi2 => h4 i hi2 hi1) h3]
    simp only [convIter, hscan, List.nil_append, List.length_map, List.length_range']
    omega
  | none =>
    have hfail := convIterAux_none f tol (m - 1) 1 hscan
    rw [adaptive_convergence_none f tol m [] hm hsafe
      (fun i hi1 hi2 => hfail i hi2 (by omega))]
    simp only [convIter, hscan, List.nil_append, List.length_map, List.length_range']
    omega

/-- Witness for C7 at `compute(n) = 1/n`, tolerance `1/100`,
`max_iterations = 10` (first success at call 5, so the log has 4
entries). -/
theorem claim7_witness :
    ((1 : ℕ) ≤ 10) ∧
    (∀ i, i ≤ 10 - 1 → 1 ≤ i → stepSafe (fun n => PyVal.num (1 / (n : ℚ)) 0) (1/100) i = true) ∧
    (((adaptive_convergence (pureF (fun n => PyVal.num (1 / (n : ℚ)) 0)) (1/100) 10 []).1).length =
      min 10 (convIter (fun n => PyVal.num (1 / (n : ℚ)) 0) (1/100) 10) - 1 ∧
    (adaptive_convergence (pureF (fun n => PyVal.num (1 / (n : ℚ)) 0)) (1/100) 1 []).1 = []) :=
  ⟨by decide,
    by intro i hi1 hi2; interval_cases i <;>
      norm_num [stepSafe, stepErr, computeError, errLtTol],
    claim7 (fun n => PyVal.num (1 / (n : ℚ)) 0) (1/100) 10 (by decide)
      (by intro i hi1 hi2; interval_cases i <;>
        norm_num [stepSafe, stepErr, computeError, errLtTol])⟩

/-- Claim C8: the convergence log is append-only.  For every compute
function (raising or not), tolerance, iteration budget and starting
history, the history after the call is the starting history with some list
of new records appended at the end — existing entries are never mutated,
removed or reordered — and in particular the log length never decreases
across calls on the same instance. -/
theorem claim8 (f : ℕ → Except PyErr PyVal) (tol : ℚ) (m : ℕ) (hist : List LogEntry) :
    ∃ E, (adaptive_convergence f tol m hist).1 = hist ++ E ∧
      hist.length ≤ ((adaptive_convergence f tol m hist).1).length := by
  obtain ⟨E, hE⟩ := adaptiveLoop_append f tol m 10 none hist
  exact ⟨E, hE, by rw [show adaptive_convergence f tol m hist =
    adaptiveLoop f tol m 10 none hist from rfl, hE]; simp⟩

/-- Claim C9: an exception raised by the compute function is not caught,
wrapped or transformed by the driver: the run driven by `failAt g j e`
(which raises `e` at the call of iteration `j`, after `j` well-behaved
non-converging iterations) ends with exactly the exception `e`, the history
contains only the records of the iterations completed before the raise (no
retry), and no fallback value is returned. -/
theorem claim9 (g : ℕ → PyVal) (tol : ℚ) (m j : ℕ) (e : PyErr) (hist : List LogEntry)
    (hj : j < m)
    (hsafe : ∀ i, i < j → 1 ≤ i → stepSafe g tol i = true)
    (hfalse : ∀ i, i < j → 1 ≤ i → stepOk g tol i = false) :
    adaptive_convergence (failAt g j e) tol m hist =
      (hist ++ (List.range' 1 (j - 1)).map (entryAt g), 0, Except.error e) := by
  obtain ⟨m2, rfl⟩ : ∃ m2, m = m2 + 1 := ⟨m - 1, by omega⟩
  rcases Nat.eq_zero_or_pos j with rfl | hj1
  · have h10 : failAt g 0 e 10 = Except.error e := by
      norm_num [failAt]
    show adaptiveLoop (failAt g 0 e) tol (m2 + 1) 10 none hist = _
    simp [adaptiveLoop, h10, List.range']
  · have h10 : failAt g j e 10 = Except.ok (g 10) := by
      simp only [failAt]
      rw [if_neg]
      intro hcon
      have hne := dim_ne (a := 0) (b := j) (by omega)
      rw [show (10 : ℕ) * 2 ^ 0 = 10 from by norm_num] at hne
      exact hne hcon
    show adaptiveLoop (failAt g j e) tol (m2 + 1) 10 none hist = _
    have hstep : adaptiveLoop (failAt g j e) tol (m2 + 1) 10 none hist =
        adaptiveLoop (failAt g j e) tol m2 20 (some (g 10)) hist := by
      simp [adaptiveLoop, h10]
    rw [hstep,
      show (20 : ℕ) = 10 * 2 ^ (0 + 1) from by norm_num,
      show g 10 = g (10 * 2 ^ 0) from by norm_num,
      adaptiveLoop_err g tol j e hsafe hfalse m2 0 hist (by omega) (by omega)]
    simp

/-- Witness for C9 at `compute(n) = n` failing at iteration `j = 2` with a
custom exception, tolerance `1/1000`, `max_iterations = 5`. -/
theorem claim9_witness :
    ((2 : ℕ) < 5) ∧
    (∀ i, i < 2 → 1 ≤ i → stepSafe (fun n => PyVal.num (n : ℚ) 0) (1/1000) i = true) ∧
    (∀ i, i < 2 → 1 ≤ i → stepOk (fun n => PyVal.num (n : ℚ) 0) (1/1000) i = false) ∧
    adaptive_convergence (failAt (fun n => PyVal.num (n : ℚ) 0) 2 (PyErr.custom 7)) (1/1000) 5 [] =
      ([] ++ (List.range' 1 (2 - 1)).map (entryAt (fun n => PyVal.num (n : ℚ) 0)), 0,
        Except.error (PyErr.custom 7)) :=
  ⟨by decide,
    by intro i hi1 hi2; interval_cases i <;>
      norm_num [stepSafe, stepErr, computeError, errLtTol],
    by intro i hi1 hi2; interval_cases i <;>
      norm_num [stepOk, stepErr, computeError, errLtTol],
    claim9 (fun n => PyVal.num (n : ℚ) 0) (1/1000) 5 2 (PyErr.custom 7) [] (by decide)
      (by intro i hi1 hi2; interval_cases i <;>
        norm_num [stepSafe, stepErr, computeError, errLtTol])
      (by intro i hi1 hi2; interval_cases i <;>
        norm_num [stepOk, stepErr, computeError, errLtTol])⟩
